import Mathlib

/-!
Verification development for `Potjans_2014/network.py` (the `Network` class of
the PyNEST microcircuit model).

The parameter-derivation pipeline (`Network.__derive_parameters`), the
stochastic connection rules built in `Network.__connect_neuronal_populations`
and `Network.__connect_thalamic_stim_input`, and the construction/
simulation orchestration (`create` / `connect` / `simulate`) are embedded
shallowly below.  Scalars are modelled as rationals.  The `helpers` module
(the statistics service: `num_synapses_from_conn_probs`,
`postsynaptic_potential_to_current`, `dc_input_compensating_poisson`,
`adjust_weights_and_input_to_synapse_scaling`) is repository code that sits
outside the file under study; following the design spec it is kept abstract,
as a bundle of delegate functions over which theorems quantify.
-/

namespace Microcircuit

/-- Model of `np.round` followed by `.astype(int)`: round to the nearest
integer, rounding exact halves to the nearest even integer (numpy's
round-half-to-even).  `Rat.floor` is used rather than `Int.floor` so the
function evaluates by kernel reduction. -/
def np_round (q : ℚ) : ℤ :=
  if q - q.floor < 1/2 then q.floor
  else if (1:ℚ)/2 < q - q.floor then q.floor + 1
  else if q.floor % 2 = 0 then q.floor else q.floor + 1

/-- The `net_dict` configuration fields consumed by `Network`, for `P`
populations.  Vectors over populations are functions `Fin P → ℚ`. -/
structure NetDict (P : ℕ) where
  full_num_neurons : Fin P → ℚ
  conn_probs : Fin P → Fin P → ℚ
  N_scaling : ℚ
  K_scaling : ℚ
  K_ext : Fin P → ℚ
  bg_rate : ℚ
  poisson_input : Bool
  PSP_matrix_mean : Fin P → Fin P → ℚ
  PSP_exc_mean : ℚ
  full_mean_rates : Fin P → ℚ
  C_m : ℚ
  tau_m : ℚ
  tau_syn : ℚ
  weight_rel_std : ℚ
  delay_matrix_mean : Fin P → Fin P → ℚ
  delay_rel_std : ℚ
  V0_type : String

/-- The `stim_dict` configuration fields consumed by `Network`. -/
structure StimDict (P : ℕ) where
  thalamic_input : Bool
  dc_input : Bool
  num_th_neurons : ℕ
  conn_probs_th : Fin P → ℚ
  PSP_th : ℚ
  delay_th_mean : ℚ
  delay_th_rel_std : ℚ

/-- The `sim_dict['rec_dev']` recording-device selection. -/
structure SimFlags where
  spikeRecorder : Bool
  voltmeter : Bool

/-- The delegate functions of the `helpers` module (the statistics service)
together with `np.sqrt`.  Their arithmetic lives outside the file under
study, so they are abstract here; theorems quantify over them and, where the
design contract demands it (non-negative expected counts, `np_sqrt` being
the non-negative square root), add the contract as a hypothesis.

`num_synapses_from_conn_probs` is the `P × P` use (recurrent call with
source and target sizes both `full_num_neurons`);
`num_synapses_from_conn_probs_th` is row `0` of the `1 × P` thalamic call
(scalar source size `num_th_neurons`, target sizes `full_num_neurons`). -/
structure Helpers (P : ℕ) where
  num_synapses_from_conn_probs :
    (Fin P → Fin P → ℚ) → (Fin P → ℚ) → (Fin P → ℚ) → Fin P → Fin P → ℚ
  num_synapses_from_conn_probs_th :
    (Fin P → ℚ) → ℚ → (Fin P → ℚ) → Fin P → ℚ
  postsynaptic_potential_to_current : ℚ → ℚ → ℚ → ℚ
  dc_input_compensating_poisson : ℚ → (Fin P → ℚ) → ℚ → ℚ → Fin P → ℚ
  adjust_weights_and_input_to_synapse_scaling :
    (Fin P → ℚ) → (Fin P → Fin P → ℚ) → ℚ → (Fin P → Fin P → ℚ) → ℚ → ℚ →
    (Fin P → ℚ) → (Fin P → ℚ) → Bool → ℚ → (Fin P → ℚ) →
    (Fin P → Fin P → ℚ) × ℚ × (Fin P → ℚ)
  np_sqrt : ℚ → ℚ

/-- The class attributes stored by `Network.__derive_parameters`.  The
thalamic fields exist only when `stim_dict['thalamic_input']` is set, hence
the `Option`. -/
structure DerivedParams (P : ℕ) where
  num_neurons : Fin P → ℤ
  num_synapses : Fin P → Fin P → ℤ
  ext_indegrees : Fin P → ℤ
  weight_matrix_mean : Fin P → Fin P → ℚ
  weight_ext : ℚ
  DC_amp : Fin P → ℚ
  num_th_synapses : Option (Fin P → ℤ)
  weight_th : Option ℚ

/-- Shallow embedding of `Network.__derive_parameters` (network.py lines
215-296).  Mirrors the source statement by statement: full-scale expected
synapse counts from the delegate, scaling and rounding of neuron/synapse
counts and external indegrees, PSP-to-PSC conversion, the DC-compensation
branch, the indegree-rescaling branch (`K_scaling != 1`), and the thalamic
branch. -/
def derive {P : ℕ} (h : Helpers P) (net : NetDict P) (stim : StimDict P) :
    DerivedParams P :=
  let full_num_synapses : Fin P → Fin P → ℚ :=
    h.num_synapses_from_conn_probs net.conn_probs net.full_num_neurons
      net.full_num_neurons
  let num_neurons : Fin P → ℤ :=
    fun i => np_round (net.full_num_neurons i * net.N_scaling)
  let num_synapses : Fin P → Fin P → ℤ :=
    fun i j => np_round (full_num_synapses i j * net.N_scaling * net.K_scaling)
  let ext_indegrees : Fin P → ℤ :=
    fun i => np_round (net.K_ext i * net.K_scaling)
  let PSC_over_PSP : ℚ :=
    h.postsynaptic_potential_to_current net.C_m net.tau_m net.tau_syn
  let PSC_matrix_mean : Fin P → Fin P → ℚ :=
    fun i j => net.PSP_matrix_mean i j * PSC_over_PSP
  let PSC_ext : ℚ := net.PSP_exc_mean * PSC_over_PSP
  let DC_amp : Fin P → ℚ :=
    if net.poisson_input then fun _ => 0
    else h.dc_input_compensating_poisson net.bg_rate net.K_ext net.tau_syn
      PSC_ext
  let adjusted : (Fin P → Fin P → ℚ) × ℚ × (Fin P → ℚ) :=
    if net.K_scaling ≠ 1 then
      h.adjust_weights_and_input_to_synapse_scaling net.full_num_neurons
        full_num_synapses net.K_scaling PSC_matrix_mean PSC_ext net.tau_syn
        net.full_mean_rates DC_amp net.poisson_input net.bg_rate net.K_ext
    else (PSC_matrix_mean, PSC_ext, DC_amp)
  let thalamic : Option (Fin P → ℤ) × Option ℚ :=
    if stim.thalamic_input then
      let num_th : Fin P → ℚ :=
        h.num_synapses_from_conn_probs_th stim.conn_probs_th
          (stim.num_th_neurons : ℚ) net.full_num_neurons
      let weight_th : ℚ := stim.PSP_th * PSC_over_PSP
      let scaled : (Fin P → ℚ) × ℚ :=
        if net.K_scaling ≠ 1 then
          (fun i => num_th i * net.K_scaling,
           weight_th / h.np_sqrt net.K_scaling)
        else (num_th, weight_th)
      (some (fun i => np_round (scaled.1 i)), some scaled.2)
    else (none, none)
  { num_neurons := num_neurons
    num_synapses := num_synapses
    ext_indegrees := ext_indegrees
    weight_matrix_mean := adjusted.1
    weight_ext := adjusted.2.1
    DC_amp := adjusted.2.2
    num_th_synapses := thalamic.1
    weight_th := thalamic.2 }

/-! ## Stochastic connection rules

`nest.math.redraw(nest.random.normal(mean, std), min, max)` (NEST 3) and the
`'normal_clipped'` distribution dictionaries (NEST 2) both describe a normal
distribution whose out-of-range samples are redrawn.  A rule is modelled by
its four parameters; `none` for a bound stands for `-inf` / `+inf`.  The
redraw (rejection) semantics is modelled by the acceptance predicate
`accepts`: a value can be delivered by the rule iff it lies within the
bounds. -/

/-- A clipped normal distribution: mean, standard deviation, and optional
lower/upper bounds (`none` = unbounded on that side); out-of-bounds samples
are redrawn, never clamped. -/
structure NormalRedraw where
  mean : ℚ
  std : ℚ
  lo : Option ℚ
  hi : Option ℚ
  deriving DecidableEq

/-- A sample value `x` is accepted (not redrawn) by the rule. -/
def accepts (s : NormalRedraw) (x : ℚ) : Bool :=
  (match s.lo with
   | none => true
   | some l => decide (l ≤ x))
  &&
  (match s.hi with
   | none => true
   | some u => decide (x ≤ u))

/-- Recurrent weight rule, NEST 3 branch
(`__connect_neuronal_populations`, lines 643-660): sign-dependent bounds
`w_min`/`w_max`, mean `weight_matrix_mean[i][j]`, std
`abs(weight_matrix_mean[i][j] * weight_rel_std)`. -/
def recurrentWeightRuleV3 {P : ℕ} (plan : DerivedParams P)
    (weight_rel_std : ℚ) (i j : Fin P) : NormalRedraw :=
  { mean := plan.weight_matrix_mean i j
    std := |plan.weight_matrix_mean i j * weight_rel_std|
    lo := if plan.weight_matrix_mean i j < 0 then none else some 0
    hi := if plan.weight_matrix_mean i j < 0 then some 0 else none }

/-- Recurrent weight rule, NEST 2 branch (lines 673-693): a
`'normal_clipped'` dictionary; `'high': 0.0` is added for negative means,
`'low': 0.0` otherwise. -/
def recurrentWeightRuleV2 {P : ℕ} (plan : DerivedParams P)
    (weight_rel_std : ℚ) (i j : Fin P) : NormalRedraw :=
  if plan.weight_matrix_mean i j < 0 then
    { mean := plan.weight_matrix_mean i j
      std := |plan.weight_matrix_mean i j * weight_rel_std|
      lo := none, hi := some 0 }
  else
    { mean := plan.weight_matrix_mean i j
      std := |plan.weight_matrix_mean i j * weight_rel_std|
      lo := some 0, hi := none }

/-- Recurrent delay rule, NEST 3 branch (lines 661-671): lower bound
`nest.resolution - 0.5 * nest.resolution`. -/
def recurrentDelayRuleV3 {P : ℕ} (net : NetDict P) (res : ℚ) (i j : Fin P) :
    NormalRedraw :=
  { mean := net.delay_matrix_mean i j
    std := net.delay_matrix_mean i j * net.delay_rel_std
    lo := some (res - 1/2 * res)
    hi := none }

/-- Recurrent delay rule, NEST 2 branch (lines 683-689): a
`'normal_clipped'` dictionary with `'low': self.sim_resolution`. -/
def recurrentDelayRuleV2 {P : ℕ} (net : NetDict P) (res : ℚ) (i j : Fin P) :
    NormalRedraw :=
  { mean := net.delay_matrix_mean i j
    std := net.delay_matrix_mean i j * net.delay_rel_std
    lo := some res
    hi := none }

/-- Thalamic delay rule, NEST 3 branch
(`__connect_thalamic_stim_input`, lines 775-785). -/
def thalamicDelayRuleV3 {P : ℕ} (stim : StimDict P) (res : ℚ) :
    NormalRedraw :=
  { mean := stim.delay_th_mean
    std := stim.delay_th_mean * stim.delay_th_rel_std
    lo := some (res - 1/2 * res)
    hi := none }

/-- Thalamic delay rule, NEST 2 branch (lines 795-801):
`'low': self.sim_resolution`. -/
def thalamicDelayRuleV2 {P : ℕ} (stim : StimDict P) (res : ℚ) :
    NormalRedraw :=
  { mean := stim.delay_th_mean
    std := stim.delay_th_mean * stim.delay_th_rel_std
    lo := some res
    hi := none }

/-! ## The external simulation engine and the construction orchestration

The NEST kernel is out of scope for the repository; it is modelled from the
spec.  `Modelled from the spec:` the SimulationEngine collaborator of §6 and
the ordering/state rules of §4.3 — entity creation, connection
establishment, `prepare()` (raising an engine-state error when the network
is already prepared), `run(duration)` advancing engine time, and
`cleanup()` deallocating the presynaptic routing structures so that a later
`prepare()` is again required.  The kernel records a chronological event
trace so ordering properties can be stated. -/

/-- One observable engine call. -/
inductive Event where
  | create (n : ℕ)
  | createDevice (n : ℕ)
  | connect
  | prepare
  | run (t : ℚ)
  | cleanup
  deriving DecidableEq

/-- Engine-state errors raised by the kernel. -/
inductive EngineError where
  | alreadyPrepared
  deriving DecidableEq

/-- Engine state: whether the presynaptic infrastructure is prepared, the
current biological time, and the chronological trace of calls. -/
structure Kernel where
  prepared : Bool
  time : ℚ
  trace : List Event
  deriving DecidableEq

def nestCreate (n : ℕ) (k : Kernel) : Kernel :=
  { k with trace := k.trace ++ [Event.create n] }

def nestCreateDevice (n : ℕ) (k : Kernel) : Kernel :=
  { k with trace := k.trace ++ [Event.createDevice n] }

def nestConnect (k : Kernel) : Kernel :=
  { k with trace := k.trace ++ [Event.connect] }

/-- `nest.Prepare()`: fails with an engine-state error if already
prepared. -/
def nestPrepare (k : Kernel) : Except EngineError Kernel :=
  if k.prepared then Except.error EngineError.alreadyPrepared
  else Except.ok { k with prepared := true, trace := k.trace ++ [Event.prepare] }

/-- `nest.Run(t)`: advances engine time by `t`. -/
def nestRun (t : ℚ) (k : Kernel) : Kernel :=
  { k with time := k.time + t, trace := k.trace ++ [Event.run t] }

/-- `nest.Cleanup()`: deallocates routing structures; a later `prepare` is
again required. -/
def nestCleanup (k : Kernel) : Kernel :=
  { k with prepared := false, trace := k.trace ++ [Event.cleanup] }

/-- The guarded `try: nest.Prepare() except: print(...)` at the start of
`Network.simulate` (lines 155-162).  The boolean records whether the
already-prepared message was logged (the error was caught and ignored). -/
def tryPrepare (k : Kernel) : Kernel × Bool :=
  match nestPrepare k with
  | Except.ok k' => (k', false)
  | Except.error _ => (k, true)

/-- Python-level errors surfaced by the orchestration: attribute access on a
never-assigned attribute (e.g. `self.pops` before `create()`), the
`V0_type incorrect` exception, and a propagated engine error. -/
inductive PyErr where
  | attributeError
  | v0TypeIncorrect
  | engine (e : EngineError)
  deriving DecidableEq

/-- The mutable state of a `Network` object together with its engine: the
kernel, the `self.pops` attribute (`none` until `create()` assigns it; the
list holds each created population's size), and whether the optional device
attributes have been assigned. -/
structure NetState where
  kernel : Kernel
  pops : Option (List ℕ)
  spikeRecs : Bool
  voltRecs : Bool
  poissonBg : Bool
  thalamic : Bool
  dcGen : Bool
  deriving DecidableEq

/-- Sequencing with Python exception semantics: state mutations made before
the raise survive on the object, and later steps do not run. -/
def pyStep (r : NetState × Option PyErr) (f : NetState → NetState × Option PyErr) :
    NetState × Option PyErr :=
  match r with
  | (s, some e) => (s, some e)
  | (s, none) => f s

/-- Loop body of `__create_neuronal_populations` (lines 372-465): for each
population, `nest.Create` runs first; the `V0_type` dispatch afterwards
raises on an unsupported mode, aborting the loop (the already-created
neurons remain in the engine). -/
def createPopsLoop {P : ℕ} (net : NetDict P) (plan : DerivedParams P) :
    List (Fin P) → NetState → NetState × Option PyErr
  | [], s => (s, none)
  | i :: rest, s =>
    let n : ℕ := (plan.num_neurons i).toNat
    let s1 : NetState := { s with kernel := nestCreate n s.kernel }
    if net.V0_type = "optimized" ∨ net.V0_type = "original" then
      createPopsLoop net plan rest
        { s1 with pops := some ((s1.pops.getD []) ++ [n]) }
    else (s1, some PyErr.v0TypeIncorrect)

/-- `__create_neuronal_populations`: `self.pops = []` then the creation
loop. -/
def createNeuronalPopulations {P : ℕ} (net : NetDict P)
    (plan : DerivedParams P) (s : NetState) : NetState × Option PyErr :=
  createPopsLoop net plan (List.finRange P) { s with pops := some [] }

/-- `__create_recording_devices`: one device collection of each requested
kind, `num_pops` devices each. -/
def createRecordingDevices {P : ℕ} (fl : SimFlags) (s : NetState) : NetState :=
  let s1 := if fl.spikeRecorder then
    { s with kernel := nestCreateDevice P s.kernel, spikeRecs := true } else s
  if fl.voltmeter then
    { s1 with kernel := nestCreateDevice P s1.kernel, voltRecs := true } else s1

/-- `__create_poisson_bg_input`: `num_pops` Poisson generators. -/
def createPoissonBgInput {P : ℕ} (s : NetState) : NetState :=
  { s with kernel := nestCreateDevice P s.kernel, poissonBg := true }

/-- `__create_thalamic_stim_input` (lines 563-597): a parrot-neuron
population of the full configured size `stim_dict['num_th_neurons']` (not
scaled by `N_scaling`), plus one Poisson generator. -/
def createThalamicStimInput {P : ℕ} (stim : StimDict P) (s : NetState) :
    NetState :=
  let k := nestCreate stim.num_th_neurons s.kernel
  { s with kernel := nestCreateDevice 1 k, thalamic := true }

/-- `__create_dc_stim_input`: `num_pops` DC generators. -/
def createDcStimInput {P : ℕ} (s : NetState) : NetState :=
  { s with kernel := nestCreateDevice P s.kernel, dcGen := true }

/-- `Network.create` (lines 90-104). -/
def networkCreate {P : ℕ} (net : NetDict P) (stim : StimDict P)
    (fl : SimFlags) (plan : DerivedParams P) (s : NetState) :
    NetState × Option PyErr :=
  pyStep (createNeuronalPopulations net plan s) fun s1 =>
    let s2 := if fl.spikeRecorder || fl.voltmeter then
      createRecordingDevices (P := P) fl s1 else s1
    let s3 := if net.poisson_input then createPoissonBgInput (P := P) s2 else s2
    let s4 := if stim.thalamic_input then createThalamicStimInput stim s3 else s3
    let s5 := if stim.dc_input then createDcStimInput (P := P) s4 else s4
    (s5, none)

/-- `__connect_neuronal_populations` (lines 631-700): iterates over target
and source populations (`enumerate(self.pops)` raises an attribute error if
`create()` never ran) and issues one `nest.Connect` per pair whose synapse
count is `>= 0`. -/
def connectNeuronalPopulations {P : ℕ} (plan : DerivedParams P)
    (s : NetState) : NetState × Option PyErr :=
  match s.pops with
  | none => (s, some PyErr.attributeError)
  | some _ =>
    let k := (List.finRange P).foldl
      (fun k i => (List.finRange P).foldl
        (fun k j => if 0 ≤ plan.num_synapses i j then nestConnect k else k) k)
      s.kernel
    ({ s with kernel := k }, none)

/-- `__connect_recording_devices`: per population, one connect per
requested device kind; accessing the device attributes before they were
assigned raises. -/
def connectRecordingDevices {P : ℕ} (fl : SimFlags) (s : NetState) :
    NetState × Option PyErr :=
  match s.pops with
  | none => (s, some PyErr.attributeError)
  | some _ =>
    if (fl.spikeRecorder && !s.spikeRecs) || (fl.voltmeter && !s.voltRecs) then
      (s, some PyErr.attributeError)
    else
      let k := (List.finRange P).foldl
        (fun k _ =>
          let k1 := if fl.spikeRecorder then nestConnect k else k
          if fl.voltmeter then nestConnect k1 else k1)
        s.kernel
      ({ s with kernel := k }, none)

/-- `__connect_poisson_bg_input`: one all-to-all connect per population. -/
def connectPoissonBgInput {P : ℕ} (s : NetState) : NetState × Option PyErr :=
  match s.pops with
  | none => (s, some PyErr.attributeError)
  | some _ =>
    if !s.poissonBg then (s, some PyErr.attributeError)
    else
      let k := (List.finRange P).foldl (fun k _ => nestConnect k) s.kernel
      ({ s with kernel := k }, none)

/-- `__connect_thalamic_stim_input`: Poisson generator to thalamic
population, then one fixed-total-number connect per target population. -/
def connectThalamicStimInput {P : ℕ} (s : NetState) : NetState × Option PyErr :=
  if !s.thalamic then (s, some PyErr.attributeError)
  else
    match s.pops with
    | none => (s, some PyErr.attributeError)
    | some _ =>
      let k := nestConnect s.kernel
      let k := (List.finRange P).foldl (fun k _ => nestConnect k) k
      ({ s with kernel := k }, none)

/-- `__connect_dc_stim_input`: one connect per population. -/
def connectDcStimInput {P : ℕ} (s : NetState) : NetState × Option PyErr :=
  match s.pops with
  | none => (s, some PyErr.attributeError)
  | some _ =>
    if !s.dcGen then (s, some PyErr.attributeError)
    else
      let k := (List.finRange P).foldl (fun k _ => nestConnect k) s.kernel
      ({ s with kernel := k }, none)

/-- The connection stages of `Network.connect` (lines 125-134), before the
final `nest.Prepare()`. -/
def connectStages {P : ℕ} (net : NetDict P) (stim : StimDict P)
    (fl : SimFlags) (plan : DerivedParams P) (s : NetState) :
    NetState × Option PyErr :=
  pyStep (connectNeuronalPopulations plan s) fun s1 =>
  pyStep (if fl.spikeRecorder || fl.voltmeter then
      connectRecordingDevices (P := P) fl s1 else (s1, none)) fun s2 =>
  pyStep (if net.poisson_input then connectPoissonBgInput (P := P) s2
      else (s2, none)) fun s3 =>
  pyStep (if stim.thalamic_input then connectThalamicStimInput (P := P) s3
      else (s3, none)) fun s4 =>
  if stim.dc_input then connectDcStimInput (P := P) s4 else (s4, none)

/-- `Network.connect` (lines 106-136): the connection stages followed by an
unguarded `nest.Prepare()` whose failure propagates. -/
def networkConnect {P : ℕ} (net : NetDict P) (stim : StimDict P)
    (fl : SimFlags) (plan : DerivedParams P) (s : NetState) :
    NetState × Option PyErr :=
  pyStep (connectStages net stim fl plan s) fun s1 =>
    match nestPrepare s1.kernel with
    | Except.ok k => ({ s1 with kernel := k }, none)
    | Except.error e => (s1, some (PyErr.engine e))

/-- `Network.simulate(t_sim)` (lines 138-164): a guarded `nest.Prepare()`
(already-prepared errors are caught and logged), then `nest.Run(t_sim)` and
`nest.Cleanup()`.  The boolean reports whether the already-prepared message
was logged.  No error escapes. -/
def networkSimulate (t : ℚ) (s : NetState) : NetState × Bool :=
  let pr := tryPrepare s.kernel
  ({ s with kernel := nestCleanup (nestRun t pr.1) }, pr.2)

/-- Construction phase of an engine call, used to state the ordering
contract: entity creation happens before connections, connections before
`prepare`, `prepare` before `run`, `run` before `cleanup`. -/
def phase : Event → ℕ
  | Event.create _ => 0
  | Event.createDevice _ => 0
  | Event.connect => 1
  | Event.prepare => 2
  | Event.run _ => 3
  | Event.cleanup => 4

/-- An event that creates engine entities. -/
def isEntityCreation : Event → Bool
  | Event.create _ => true
  | Event.createDevice _ => true
  | _ => false

/-! ## Concrete test fixtures (one cortical population) -/

/-- A concrete delegate bundle: constant expected counts, unit
PSP-to-PSC factor, constant compensation, identity rescaling, and a square
root suited to `K_scaling = 1/4`. -/
def h0 : Helpers 1 :=
  { num_synapses_from_conn_probs := fun _ _ _ _ _ => 10
    num_synapses_from_conn_probs_th := fun _ _ _ _ => 10
    postsynaptic_potential_to_current := fun _ _ _ => 1
    dc_input_compensating_poisson := fun _ _ _ _ _ => 5
    adjust_weights_and_input_to_synapse_scaling :=
      fun _ _ _ m e _ _ d _ _ _ => (m, e, d)
    np_sqrt := fun _ => 1/2 }

/-- A concrete unscaled network configuration. -/
def net0 : NetDict 1 :=
  { full_num_neurons := fun _ => 100
    conn_probs := fun _ _ => 1/10
    N_scaling := 1
    K_scaling := 1
    K_ext := fun _ => 20
    bg_rate := 8
    poisson_input := false
    PSP_matrix_mean := fun _ _ => -3/2
    PSP_exc_mean := 3/20
    full_mean_rates := fun _ => 4
    C_m := 250
    tau_m := 10
    tau_syn := 1/2
    weight_rel_std := 1/10
    delay_matrix_mean := fun _ _ => 3/2
    delay_rel_std := 1/2
    V0_type := "optimized" }

/-- A concrete stimulus configuration with every stimulus disabled. -/
def stim0 : StimDict 1 :=
  { thalamic_input := false
    dc_input := false
    num_th_neurons := 30
    conn_probs_th := fun _ => 1/10
    PSP_th := 2
    delay_th_mean := 3/2
    delay_th_rel_std := 1/2 }

/-- Thalamic stimulation enabled. -/
def stim1 : StimDict 1 := { stim0 with thalamic_input := true }

/-- No recording devices. -/
def fl0 : SimFlags := { spikeRecorder := false, voltmeter := false }

/-- A concrete derived-parameter set for the orchestration fixtures. -/
def plan1 : DerivedParams 1 :=
  { num_neurons := fun _ => 100
    num_synapses := fun _ _ => 10
    ext_indegrees := fun _ => 20
    weight_matrix_mean := fun _ _ => -3/2
    weight_ext := 1
    DC_amp := fun _ => 0
    num_th_synapses := none
    weight_th := none }

/-- The freshly constructed `Network`: kernel initialized, nothing created
yet. -/
def s0 : NetState :=
  { kernel := { prepared := false, time := 0, trace := [] }
    pops := none
    spikeRecs := false
    voltRecs := false
    poissonBg := false
    thalamic := false
    dcGen := false }

/-- The state after `create()` on the fixture. -/
def sCreated : NetState :=
  { kernel := { prepared := false, time := 0, trace := [Event.create 100] }
    pops := some [100]
    spikeRecs := false
    voltRecs := false
    poissonBg := false
    thalamic := false
    dcGen := false }

/-- The state after `create()` then `connect()` on the fixture. -/
def sConn : NetState :=
  { kernel := { prepared := true, time := 0,
                trace := [Event.create 100, Event.connect, Event.prepare] }
    pops := some [100]
    spikeRecs := false
    voltRecs := false
    poissonBg := false
    thalamic := false
    dcGen := false }

/-! ## Basic lemmas -/

theorem rat_floor_eq_floor (q : ℚ) : q.floor = ⌊q⌋ :=
  (Rat.floor_def' q).trans Rat.floor_def.symm

theorem np_round_zero : np_round 0 = 0 := by
  norm_num [np_round, rat_floor_eq_floor]

theorem np_round_nonneg {q : ℚ} (hq : 0 ≤ q) : 0 ≤ np_round q := by
  have h0 : (0:ℤ) ≤ ⌊q⌋ := Int.floor_nonneg.mpr hq
  unfold np_round
  rw [rat_floor_eq_floor]
  split_ifs <;> omega

/-- `np_round` lands within one half of its argument. -/
theorem abs_np_round_sub (q : ℚ) : |(np_round q : ℚ) - q| ≤ 1/2 := by
  have h0 : (⌊q⌋ : ℚ) ≤ q := Int.floor_le q
  have h1 : q < ⌊q⌋ + 1 := Int.lt_floor_add_one q
  unfold np_round
  rw [rat_floor_eq_floor]
  split_ifs with ha hb hc
  · rw [abs_le]; constructor <;> linarith
  · push_cast
    rw [abs_le]; constructor <;> linarith
  · rw [abs_le]; constructor <;> linarith
  · push_cast
    rw [abs_le]; constructor <;> linarith

theorem nestPrepare_ok {k k' : Kernel} (h : nestPrepare k = Except.ok k') :
    k.prepared = false ∧ k'.prepared = true ∧
    k'.trace = k.trace ++ [Event.prepare] ∧ k'.time = k.time := by
  unfold nestPrepare at h
  by_cases hp : k.prepared
  · rw [if_pos hp] at h
    simp at h
  · rw [if_neg hp] at h
    simp only [Except.ok.injEq] at h
    subst h
    exact ⟨by simpa using hp, rfl, rfl, rfl⟩

theorem tryPrepare_of_prepared {k : Kernel} (h : k.prepared = true) :
    tryPrepare k = (k, true) := by
  unfold tryPrepare nestPrepare
  rw [if_pos h]

theorem tryPrepare_of_unprepared {k : Kernel} (h : k.prepared = false) :
    tryPrepare k =
      ({ k with prepared := true, trace := k.trace ++ [Event.prepare] }, false) := by
  unfold tryPrepare nestPrepare
  rw [if_neg (by simp [h])]

/-! ## Trace-structure lemmas -/

theorem replicate_ext_trans {t1 t2 t3 : List Event}
    (h12 : ∃ m, t2 = t1 ++ List.replicate m Event.connect)
    (h23 : ∃ m, t3 = t2 ++ List.replicate m Event.connect) :
    ∃ m, t3 = t1 ++ List.replicate m Event.connect := by
  obtain ⟨m1, rfl⟩ := h12
  obtain ⟨m2, rfl⟩ := h23
  exact ⟨m1 + m2, by rw [List.append_assoc, List.replicate_add]⟩

theorem creation_ext_trans {t1 t2 t3 : List Event}
    (h12 : ∃ cs, t2 = t1 ++ cs ∧ cs.all isEntityCreation = true)
    (h23 : ∃ cs, t3 = t2 ++ cs ∧ cs.all isEntityCreation = true) :
    ∃ cs, t3 = t1 ++ cs ∧ cs.all isEntityCreation = true := by
  obtain ⟨a, rfl, ha⟩ := h12
  obtain ⟨b, rfl, hb⟩ := h23
  exact ⟨a ++ b, by rw [List.append_assoc], by simp_all [List.all_append]⟩

/-- A fold whose every step only appends connect events itself only appends
connect events. -/
theorem foldl_connect_trace {α : Type} (f : Kernel → α → Kernel)
    (hf : ∀ k a, ∃ m,
      (f k a).trace = k.trace ++ List.replicate m Event.connect) :
    ∀ (l : List α) (k : Kernel), ∃ m,
      (l.foldl f k).trace = k.trace ++ List.replicate m Event.connect := by
  intro l
  induction l with
  | nil => exact fun k => ⟨0, by simp⟩
  | cons a l ih =>
    intro k
    obtain ⟨m1, h1⟩ := hf k a
    obtain ⟨m2, h2⟩ := ih (f k a)
    refine ⟨m1 + m2, ?_⟩
    rw [List.foldl_cons, h2, h1, List.append_assoc, List.replicate_add]

theorem pyStep_success {r : NetState × Option PyErr}
    {f : NetState → NetState × Option PyErr} {s' : NetState}
    (h : pyStep r f = (s', none)) :
    ∃ s1, r = (s1, none) ∧ f s1 = (s', none) := by
  cases r with
  | mk s1 e1 =>
    cases e1 with
    | none => exact ⟨s1, rfl, by simpa [pyStep] using h⟩
    | some e =>
      simp only [pyStep] at h
      exact Option.noConfusion (congrArg Prod.snd h)

theorem if_stage_success {c : Prop} [Decidable c]
    {X : NetState → NetState × Option PyErr} {s1 s2 : NetState}
    (h : (if c then X s1 else (s1, none)) = (s2, none))
    (hX : X s1 = (s2, none) →
      ∃ m, s2.kernel.trace = s1.kernel.trace ++ List.replicate m Event.connect) :
    ∃ m, s2.kernel.trace = s1.kernel.trace ++ List.replicate m Event.connect := by
  by_cases hc : c
  · rw [if_pos hc] at h
    exact hX h
  · rw [if_neg hc] at h
    simp only [Prod.mk.injEq] at h
    obtain ⟨rfl, -⟩ := h
    exact ⟨0, by simp⟩

theorem connectNeuronalPopulations_success {P : ℕ} (plan : DerivedParams P)
    {s s' : NetState} (h : connectNeuronalPopulations plan s = (s', none)) :
    ∃ m, s'.kernel.trace = s.kernel.trace ++ List.replicate m Event.connect := by
  unfold connectNeuronalPopulations at h
  cases hp : s.pops with
  | none =>
    rw [hp] at h
    exact Option.noConfusion (congrArg Prod.snd h)
  | some l =>
    rw [hp] at h
    simp only [Prod.mk.injEq] at h
    obtain ⟨hs, -⟩ := h
    subst hs
    have inner : ∀ (i : Fin P) (k : Kernel), ∃ m,
        ((List.finRange P).foldl
          (fun k j => if 0 ≤ plan.num_synapses i j then nestConnect k else k) k).trace
        = k.trace ++ List.replicate m Event.connect := by
      intro i
      refine foldl_connect_trace
        (fun k j => if 0 ≤ plan.num_synapses i j then nestConnect k else k)
        ?_ (List.finRange P)
      intro k j
      by_cases hc : 0 ≤ plan.num_synapses i j
      · exact ⟨1, by simp [hc, nestConnect]⟩
      · exact ⟨0, by simp [hc]⟩
    obtain ⟨m, hm⟩ := foldl_connect_trace
      (fun k i => (List.finRange P).foldl
        (fun k j => if 0 ≤ plan.num_synapses i j then nestConnect k else k) k)
      (fun k i => inner i k) (List.finRange P) s.kernel
    exact ⟨m, hm⟩

theorem connectRecordingDevices_success {P : ℕ} (fl : SimFlags)
    {s s' : NetState} (h : connectRecordingDevices (P := P) fl s = (s', none)) :
    ∃ m, s'.kernel.trace = s.kernel.trace ++ List.replicate m Event.connect := by
  unfold connectRecordingDevices at h
  cases hp : s.pops with
  | none =>
    rw [hp] at h
    exact Option.noConfusion (congrArg Prod.snd h)
  | some l =>
    rw [hp] at h
    by_cases hg : (fl.spikeRecorder && !s.spikeRecs) ||
        (fl.voltmeter && !s.voltRecs)
    · rw [if_pos hg] at h
      exact Option.noConfusion (congrArg Prod.snd h)
    · rw [if_neg hg] at h
      simp only [Prod.mk.injEq] at h
      obtain ⟨hs, -⟩ := h
      subst hs
      obtain ⟨m, hm⟩ := foldl_connect_trace
        (fun k (_ : Fin P) =>
          let k1 := if fl.spikeRecorder then nestConnect k else k
          if fl.voltmeter then nestConnect k1 else k1)
        (fun k a => by
          by_cases h1 : fl.spikeRecorder <;> by_cases h2 : fl.voltmeter
          · exact ⟨1 + 1, by
              simp [h1, h2, nestConnect, List.replicate_add]⟩
          · exact ⟨1, by simp [h1, h2, nestConnect]⟩
          · exact ⟨1, by simp [h1, h2, nestConnect]⟩
          · exact ⟨0, by simp [h1, h2]⟩)
        (List.finRange P) s.kernel
      exact ⟨m, hm⟩

theorem connectPoissonBgInput_success {P : ℕ}
    {s s' : NetState} (h : connectPoissonBgInput (P := P) s = (s', none)) :
    ∃ m, s'.kernel.trace = s.kernel.trace ++ List.replicate m Event.connect := by
  unfold connectPoissonBgInput at h
  cases hp : s.pops with
  | none =>
    rw [hp] at h
    exact Option.noConfusion (congrArg Prod.snd h)
  | some l =>
    rw [hp] at h
    by_cases hg : !s.poissonBg
    · rw [if_pos hg] at h
      exact Option.noConfusion (congrArg Prod.snd h)
    · rw [if_neg hg] at h
      simp only [Prod.mk.injEq] at h
      obtain ⟨hs, -⟩ := h
      subst hs
      obtain ⟨m, hm⟩ := foldl_connect_trace
        (fun k (_ : Fin P) => nestConnect k)
        (fun k _ => ⟨1, rfl⟩) (List.finRange P) s.kernel
      exact ⟨m, hm⟩

theorem connectThalamicStimInput_success {P : ℕ}
    {s s' : NetState} (h : connectThalamicStimInput (P := P) s = (s', none)) :
    ∃ m, s'.kernel.trace = s.kernel.trace ++ List.replicate m Event.connect := by
  unfold connectThalamicStimInput at h
  by_cases hg : !s.thalamic
  · rw [if_pos hg] at h
    exact Option.noConfusion (congrArg Prod.snd h)
  · rw [if_neg hg] at h
    cases hp : s.pops with
    | none =>
      rw [hp] at h
      exact Option.noConfusion (congrArg Prod.snd h)
    | some l =>
      rw [hp] at h
      simp only [Prod.mk.injEq] at h
      obtain ⟨hs, -⟩ := h
      subst hs
      obtain ⟨m, hm⟩ := foldl_connect_trace
        (fun k (_ : Fin P) => nestConnect k)
        (fun k _ => ⟨1, rfl⟩) (List.finRange P) (nestConnect s.kernel)
      refine ⟨m + 1, ?_⟩
      rw [hm]
      simp [nestConnect, List.replicate_succ]

theorem connectDcStimInput_success {P : ℕ}
    {s s' : NetState} (h : connectDcStimInput (P := P) s = (s', none)) :
    ∃ m, s'.kernel.trace = s.kernel.trace ++ List.replicate m Event.connect := by
  unfold connectDcStimInput at h
  cases hp : s.pops with
  | none =>
    rw [hp] at h
    exact Option.noConfusion (congrArg Prod.snd h)
  | some l =>
    rw [hp] at h
    by_cases hg : !s.dcGen
    · rw [if_pos hg] at h
      exact Option.noConfusion (congrArg Prod.snd h)
    · rw [if_neg hg] at h
      simp only [Prod.mk.injEq] at h
      obtain ⟨hs, -⟩ := h
      subst hs
      obtain ⟨m, hm⟩ := foldl_connect_trace
        (fun k (_ : Fin P) => nestConnect k)
        (fun k _ => ⟨1, rfl⟩) (List.finRange P) s.kernel
      exact ⟨m, hm⟩

theorem connectStages_success {P : ℕ} (net : NetDict P) (stim : StimDict P)
    (fl : SimFlags) (plan : DerivedParams P) {s s' : NetState}
    (h : connectStages net stim fl plan s = (s', none)) :
    ∃ m, s'.kernel.trace = s.kernel.trace ++ List.replicate m Event.connect := by
  unfold connectStages at h
  obtain ⟨s1, h1, h⟩ := pyStep_success h
  obtain ⟨s2, h2, h⟩ := pyStep_success h
  obtain ⟨s3, h3, h⟩ := pyStep_success h
  obtain ⟨s4, h4, h⟩ := pyStep_success h
  refine replicate_ext_trans (connectNeuronalPopulations_success plan h1)
    (replicate_ext_trans (if_stage_success h2
        (connectRecordingDevices_success fl))
      (replicate_ext_trans (if_stage_success h3 connectPoissonBgInput_success)
        (replicate_ext_trans (if_stage_success h4
            connectThalamicStimInput_success)
          (if_stage_success h connectDcStimInput_success))))

/-- A successful `connect()` appends only connect events followed by the
final `prepare`, and leaves the engine prepared. -/
theorem networkConnect_success {P : ℕ} (net : NetDict P) (stim : StimDict P)
    (fl : SimFlags) (plan : DerivedParams P) {s s' : NetState}
    (h : networkConnect net stim fl plan s = (s', none)) :
    (∃ m, s'.kernel.trace = s.kernel.trace ++ List.replicate m Event.connect
        ++ [Event.prepare]) ∧ s'.kernel.prepared = true := by
  unfold networkConnect at h
  cases h1 : connectStages net stim fl plan s with
  | mk s1 e1 =>
    rw [h1] at h
    cases e1 with
    | some e => simp [pyStep] at h
    | none =>
      simp only [pyStep] at h
      obtain ⟨m, hm⟩ := connectStages_success net stim fl plan h1
      cases h2 : nestPrepare s1.kernel with
      | error e => rw [h2] at h; simp at h
      | ok k =>
        rw [h2] at h
        simp only [Prod.mk.injEq] at h
        obtain ⟨rfl, -⟩ := h
        obtain ⟨-, hk1, hk2, -⟩ := nestPrepare_ok h2
        exact ⟨⟨m, by simp only [hk2, hm]⟩, hk1⟩

/-- Rounding a scaled count and dividing the weight by the square root of
the scale preserves `count * weight^2` up to half a squared scaled
weight. -/
theorem np_round_mul_sq_bound (n k s w0 : ℚ) (hkpos : 0 < k) (hs2 : s^2 = k) :
    |((np_round (n * k) : ℚ)) * (w0 / s)^2 - n * w0^2| ≤ (w0 / s)^2 / 2 := by
  have hkne : k ≠ 0 := ne_of_gt hkpos
  have hw2 : (w0 / s)^2 = w0^2 / k := by rw [div_pow, hs2]
  have key : ((np_round (n * k) : ℚ)) * (w0/s)^2 - n * w0^2
      = ((np_round (n*k) : ℚ) - n*k) * (w0^2/k) := by
    rw [hw2]
    field_simp
    ring
  rw [key, abs_mul, abs_of_nonneg (div_nonneg (sq_nonneg w0) hkpos.le), hw2]
  calc |(np_round (n*k) : ℚ) - n*k| * (w0^2/k)
      ≤ (1/2) * (w0^2/k) := by
        exact mul_le_mul_of_nonneg_right (abs_np_round_sub (n*k))
          (div_nonneg (sq_nonneg w0) hkpos.le)
    _ = (w0^2/k)/2 := by ring

/-! ## Claims -/

/-- Claim C1: for every connection-probability matrix and neuron-count
vector (the expected full-scale synapse counts being delivered by the
delegated statistics service, which per its contract returns non-negative
values), the derived scaled synapse count satisfies
`num_synapses[i][j] = round(expected[i][j] * N_scaling * K_scaling)`;
whenever `expected[i][j] = 0` the scaled count is `0`; and every entry is a
non-negative integer. -/
theorem num_synapses_count_rounding {P : ℕ} (h : Helpers P) (net : NetDict P)
    (stim : StimDict P) (hN : 0 < net.N_scaling) (hK : 0 < net.K_scaling)
    (hE : ∀ a b, 0 ≤ h.num_synapses_from_conn_probs net.conn_probs
      net.full_num_neurons net.full_num_neurons a b) (i j : Fin P) :
    (derive h net stim).num_synapses i j
        = np_round (h.num_synapses_from_conn_probs net.conn_probs
            net.full_num_neurons net.full_num_neurons i j
          * net.N_scaling * net.K_scaling) ∧
    (h.num_synapses_from_conn_probs net.conn_probs net.full_num_neurons
        net.full_num_neurons i j = 0 →
      (derive h net stim).num_synapses i j = 0) ∧
    0 ≤ (derive h net stim).num_synapses i j := by
  refine ⟨rfl, ?_, ?_⟩
  · intro h0
    show np_round _ = 0
    rw [h0, zero_mul, zero_mul, np_round_zero]
  · exact np_round_nonneg (mul_nonneg (mul_nonneg (hE i j) hN.le) hK.le)

theorem num_synapses_count_rounding_witness :
    (0:ℚ) < net0.N_scaling ∧
    ((derive h0 net0 stim0).num_synapses 0 0
        = np_round (h0.num_synapses_from_conn_probs net0.conn_probs
            net0.full_num_neurons net0.full_num_neurons 0 0
          * net0.N_scaling * net0.K_scaling) ∧
      (h0.num_synapses_from_conn_probs net0.conn_probs net0.full_num_neurons
          net0.full_num_neurons 0 0 = 0 →
        (derive h0 net0 stim0).num_synapses 0 0 = 0) ∧
      0 ≤ (derive h0 net0 stim0).num_synapses 0 0) :=
  ⟨by norm_num [net0],
   num_synapses_count_rounding h0 net0 stim0 (by norm_num [net0])
     (by norm_num [net0]) (fun a b => by norm_num [h0]) 0 0⟩

/-- Claim C2: for every population pair, the recurrent weight rule (in both
engine branches, which agree) is normal with mean
`weight_matrix_mean[i][j]` and standard deviation `|mean| * weight_rel_std`,
with sign-dependent clip bounds `(-inf, 0]` for a negative mean and
`[0, inf)` otherwise; out-of-range samples are redrawn, so every accepted
sample of a negative-mean rule is `<= 0` and of a non-negative-mean rule is
`>= 0`. -/
theorem recurrent_weight_polarity_contract {P : ℕ} (plan : DerivedParams P)
    (srel : ℚ) (i j : Fin P) (hs : 0 ≤ srel) (x : ℚ) :
    recurrentWeightRuleV2 plan srel i j = recurrentWeightRuleV3 plan srel i j ∧
    (recurrentWeightRuleV3 plan srel i j).mean = plan.weight_matrix_mean i j ∧
    (recurrentWeightRuleV3 plan srel i j).std
        = |plan.weight_matrix_mean i j| * srel ∧
    (recurrentWeightRuleV3 plan srel i j).lo
        = (if plan.weight_matrix_mean i j < 0 then none else some 0) ∧
    (recurrentWeightRuleV3 plan srel i j).hi
        = (if plan.weight_matrix_mean i j < 0 then some 0 else none) ∧
    (accepts (recurrentWeightRuleV3 plan srel i j) x = true →
      (plan.weight_matrix_mean i j < 0 → x ≤ 0) ∧
      (0 ≤ plan.weight_matrix_mean i j → 0 ≤ x)) := by
  refine ⟨?_, rfl, by rw [recurrentWeightRuleV3]; rw [abs_mul, abs_of_nonneg hs],
    rfl, rfl, ?_⟩
  · by_cases hw : plan.weight_matrix_mean i j < 0
    · rw [recurrentWeightRuleV2, recurrentWeightRuleV3, if_pos hw, if_pos hw,
        if_pos hw]
    · rw [recurrentWeightRuleV2, recurrentWeightRuleV3, if_neg hw, if_neg hw,
        if_neg hw]
  · intro hacc
    by_cases hw : plan.weight_matrix_mean i j < 0
    · rw [recurrentWeightRuleV3] at hacc
      simp only [accepts, if_pos hw, Bool.and_eq_true, decide_eq_true_eq] at hacc
      exact ⟨fun _ => hacc.2, fun h0 => absurd hw (not_lt.mpr h0)⟩
    · rw [recurrentWeightRuleV3] at hacc
      simp only [accepts, if_neg hw, Bool.and_eq_true, decide_eq_true_eq] at hacc
      exact ⟨fun hlt => absurd hlt hw, fun _ => hacc.1⟩

theorem recurrent_weight_polarity_contract_witness :
    (0:ℚ) ≤ 1/10 ∧
    (recurrentWeightRuleV2 plan1 (1/10) 0 0
        = recurrentWeightRuleV3 plan1 (1/10) 0 0 ∧
      (recurrentWeightRuleV3 plan1 (1/10) 0 0).mean
          = plan1.weight_matrix_mean 0 0 ∧
      (recurrentWeightRuleV3 plan1 (1/10) 0 0).std
          = |plan1.weight_matrix_mean 0 0| * (1/10) ∧
      (recurrentWeightRuleV3 plan1 (1/10) 0 0).lo
          = (if plan1.weight_matrix_mean 0 0 < 0 then none else some 0) ∧
      (recurrentWeightRuleV3 plan1 (1/10) 0 0).hi
          = (if plan1.weight_matrix_mean 0 0 < 0 then some 0 else none) ∧
      (accepts (recurrentWeightRuleV3 plan1 (1/10) 0 0) (-1) = true →
        (plan1.weight_matrix_mean 0 0 < 0 → (-1:ℚ) ≤ 0) ∧
        (0 ≤ plan1.weight_matrix_mean 0 0 → (0:ℚ) ≤ -1))) :=
  ⟨by norm_num,
   recurrent_weight_polarity_contract plan1 (1/10) 0 0 (by norm_num) (-1)⟩

/-- Claim C3 (amended): in both engine branches and for both recurrent and
thalamic delay rules, the delay distribution is normal with the configured
mean and relative standard deviation and every accepted delay is at least
half the simulation resolution; the version-3 branch clips at exactly
`resolution/2`, the version-2 branch at `resolution` (not `resolution/2` as
the original claim states). -/
theorem delay_floor_amended {P : ℕ} (net : NetDict P) (stim : StimDict P)
    (res : ℚ) (hres : 0 ≤ res) (i j : Fin P) (x : ℚ) :
    (recurrentDelayRuleV3 net res i j).lo = some (res/2) ∧
    (recurrentDelayRuleV2 net res i j).lo = some res ∧
    (accepts (recurrentDelayRuleV3 net res i j) x = true → res/2 ≤ x) ∧
    (accepts (recurrentDelayRuleV2 net res i j) x = true → res/2 ≤ x) ∧
    (accepts (thalamicDelayRuleV3 stim res) x = true → res/2 ≤ x) ∧
    (accepts (thalamicDelayRuleV2 stim res) x = true → res/2 ≤ x) ∧
    (recurrentDelayRuleV3 net res i j).mean = net.delay_matrix_mean i j ∧
    (recurrentDelayRuleV3 net res i j).std
        = net.delay_matrix_mean i j * net.delay_rel_std ∧
    (thalamicDelayRuleV3 stim res).mean = stim.delay_th_mean ∧
    (thalamicDelayRuleV3 stim res).std
        = stim.delay_th_mean * stim.delay_th_rel_std := by
  have hhalf : res - 1/2 * res = res/2 := by ring
  refine ⟨by rw [recurrentDelayRuleV3, hhalf], rfl, ?_, ?_, ?_, ?_, rfl, rfl,
    rfl, rfl⟩ <;>
  · intro hacc
    simp only [recurrentDelayRuleV3, recurrentDelayRuleV2, thalamicDelayRuleV3,
      thalamicDelayRuleV2, accepts, Bool.and_eq_true, decide_eq_true_eq] at hacc
    linarith [hacc.1]

theorem delay_floor_amended_witness :
    (0:ℚ) ≤ 1/10 ∧
    ((recurrentDelayRuleV3 net0 (1/10) 0 0).lo = some ((1/10)/2) ∧
      (recurrentDelayRuleV2 net0 (1/10) 0 0).lo = some (1/10) ∧
      (accepts (recurrentDelayRuleV3 net0 (1/10) 0 0) (3/2) = true →
        (1/10:ℚ)/2 ≤ 3/2) ∧
      (accepts (recurrentDelayRuleV2 net0 (1/10) 0 0) (3/2) = true →
        (1/10:ℚ)/2 ≤ 3/2) ∧
      (accepts (thalamicDelayRuleV3 stim0 (1/10)) (3/2) = true →
        (1/10:ℚ)/2 ≤ 3/2) ∧
      (accepts (thalamicDelayRuleV2 stim0 (1/10)) (3/2) = true →
        (1/10:ℚ)/2 ≤ 3/2) ∧
      (recurrentDelayRuleV3 net0 (1/10) 0 0).mean
          = net0.delay_matrix_mean 0 0 ∧
      (recurrentDelayRuleV3 net0 (1/10) 0 0).std
          = net0.delay_matrix_mean 0 0 * net0.delay_rel_std ∧
      (thalamicDelayRuleV3 stim0 (1/10)).mean = stim0.delay_th_mean ∧
      (thalamicDelayRuleV3 stim0 (1/10)).std
          = stim0.delay_th_mean * stim0.delay_th_rel_std) :=
  ⟨by norm_num, delay_floor_amended net0 stim0 (1/10) (by norm_num) 0 0 (3/2)⟩

/-- Claim C4: with thalamic stimulus configured and `K_scaling = k ≠ 1`,
the derived thalamic fields are exactly the pair
`num_th_synapses = round(expected_th * k)` and
`weight_th = PSP_th * PSC_over_PSP / sqrt(k)`; they do not route through the
general rescaling correction (replacing the delegated correction changes
neither field); and the variance-preservation identity
`num_th_synapses' * weight_th'^2 ≈ num_th_synapses * weight_th^2` holds
within rounding tolerance (half a squared scaled weight). -/
theorem thalamic_compensation {P : ℕ} (h : Helpers P) (net : NetDict P)
    (stim : StimDict P) (i : Fin P)
    (a : (Fin P → ℚ) → (Fin P → Fin P → ℚ) → ℚ → (Fin P → Fin P → ℚ) → ℚ → ℚ →
      (Fin P → ℚ) → (Fin P → ℚ) → Bool → ℚ → (Fin P → ℚ) →
      (Fin P → Fin P → ℚ) × ℚ × (Fin P → ℚ))
    (hth : stim.thalamic_input = true) (hk1 : net.K_scaling ≠ 1)
    (hkpos : 0 < net.K_scaling)
    (hs2 : (h.np_sqrt net.K_scaling)^2 = net.K_scaling) :
    (derive h net stim).num_th_synapses
        = some (fun b => np_round
            (h.num_synapses_from_conn_probs_th stim.conn_probs_th
              (stim.num_th_neurons : ℚ) net.full_num_neurons b
             * net.K_scaling)) ∧
    (derive h net stim).weight_th
        = some ((stim.PSP_th * h.postsynaptic_potential_to_current net.C_m
            net.tau_m net.tau_syn) / h.np_sqrt net.K_scaling) ∧
    |((np_round (h.num_synapses_from_conn_probs_th stim.conn_probs_th
          (stim.num_th_neurons : ℚ) net.full_num_neurons i
         * net.K_scaling) : ℚ))
        * ((stim.PSP_th * h.postsynaptic_potential_to_current net.C_m
            net.tau_m net.tau_syn) / h.np_sqrt net.K_scaling)^2
      - h.num_synapses_from_conn_probs_th stim.conn_probs_th
          (stim.num_th_neurons : ℚ) net.full_num_neurons i
        * (stim.PSP_th * h.postsynaptic_potential_to_current net.C_m
            net.tau_m net.tau_syn)^2|
      ≤ ((stim.PSP_th * h.postsynaptic_potential_to_current net.C_m
          net.tau_m net.tau_syn) / h.np_sqrt net.K_scaling)^2 / 2 ∧
    (derive { h with adjust_weights_and_input_to_synapse_scaling := a }
        net stim).num_th_synapses = (derive h net stim).num_th_synapses ∧
    (derive { h with adjust_weights_and_input_to_synapse_scaling := a }
        net stim).weight_th = (derive h net stim).weight_th := by
  refine ⟨?_, ?_, ?_, rfl, rfl⟩
  · simp [derive, hth, hk1]
  · simp [derive, hth, hk1]
  · exact np_round_mul_sq_bound _ net.K_scaling _ _ hkpos hs2

theorem thalamic_compensation_witness :
    stim1.thalamic_input = true ∧
    ((derive h0 { net0 with K_scaling := 1/4 } stim1).num_th_synapses
        = some (fun b => np_round
            (h0.num_synapses_from_conn_probs_th stim1.conn_probs_th
              (stim1.num_th_neurons : ℚ)
              ({ net0 with K_scaling := 1/4 } : NetDict 1).full_num_neurons b
             * ({ net0 with K_scaling := 1/4 } : NetDict 1).K_scaling)) ∧
      (derive h0 { net0 with K_scaling := 1/4 } stim1).weight_th
          = some ((stim1.PSP_th * h0.postsynaptic_potential_to_current
              ({ net0 with K_scaling := 1/4 } : NetDict 1).C_m
              ({ net0 with K_scaling := 1/4 } : NetDict 1).tau_m
              ({ net0 with K_scaling := 1/4 } : NetDict 1).tau_syn)
            / h0.np_sqrt ({ net0 with K_scaling := 1/4 } : NetDict 1).K_scaling) ∧
      |((np_round (h0.num_synapses_from_conn_probs_th stim1.conn_probs_th
            (stim1.num_th_neurons : ℚ)
            ({ net0 with K_scaling := 1/4 } : NetDict 1).full_num_neurons 0
           * ({ net0 with K_scaling := 1/4 } : NetDict 1).K_scaling) : ℚ))
          * ((stim1.PSP_th * h0.postsynaptic_potential_to_current
              ({ net0 with K_scaling := 1/4 } : NetDict 1).C_m
              ({ net0 with K_scaling := 1/4 } : NetDict 1).tau_m
              ({ net0 with K_scaling := 1/4 } : NetDict 1).tau_syn)
            / h0.np_sqrt ({ net0 with K_scaling := 1/4 } : NetDict 1).K_scaling)^2
        - h0.num_synapses_from_conn_probs_th stim1.conn_probs_th
            (stim1.num_th_neurons : ℚ)
            ({ net0 with K_scaling := 1/4 } : NetDict 1).full_num_neurons 0
          * (stim1.PSP_th * h0.postsynaptic_potential_to_current
              ({ net0 with K_scaling := 1/4 } : NetDict 1).C_m
              ({ net0 with K_scaling := 1/4 } : NetDict 1).tau_m
              ({ net0 with K_scaling := 1/4 } : NetDict 1).tau_syn)^2|
        ≤ ((stim1.PSP_th * h0.postsynaptic_potential_to_current
            ({ net0 with K_scaling := 1/4 } : NetDict 1).C_m
            ({ net0 with K_scaling := 1/4 } : NetDict 1).tau_m
            ({ net0 with K_scaling := 1/4 } : NetDict 1).tau_syn)
          / h0.np_sqrt ({ net0 with K_scaling := 1/4 } : NetDict 1).K_scaling)^2
          / 2 ∧
      (derive { h0 with adjust_weights_and_input_to_synapse_scaling :=
          fun _ _ _ m e _ _ d _ _ _ => (m, e, d) }
          { net0 with K_scaling := 1/4 } stim1).num_th_synapses
        = (derive h0 { net0 with K_scaling := 1/4 } stim1).num_th_synapses ∧
      (derive { h0 with adjust_weights_and_input_to_synapse_scaling :=
          fun _ _ _ m e _ _ d _ _ _ => (m, e, d) }
          { net0 with K_scaling := 1/4 } stim1).weight_th
        = (derive h0 { net0 with K_scaling := 1/4 } stim1).weight_th) :=
  ⟨rfl,
   thalamic_compensation h0 { net0 with K_scaling := 1/4 } stim1 0
     (fun _ _ _ m e _ _ d _ _ _ => (m, e, d)) rfl
     (by norm_num [net0]) (by norm_num [net0]) (by norm_num [h0, net0])⟩

/-- Claim C5: the compensatory bias (`DC_amp`) is the all-zero vector when
background drive is a stochastic Poisson process and otherwise the value
computed by the delegated service from background rate, external indegrees,
synaptic time constant and converted external weight — exactly so in the
derived plan when no indegree rescaling applies (`K_scaling = 1`); when
`K_scaling ≠ 1` the plan's bias is the third component returned by the
delegated rescaling correction applied to that same branch value. -/
theorem bias_current_poisson_branch {P : ℕ} (h : Helpers P) (net : NetDict P)
    (stim : StimDict P) :
    (net.poisson_input = true → net.K_scaling = 1 →
      (derive h net stim).DC_amp = fun _ => 0) ∧
    (net.poisson_input = false → net.K_scaling = 1 →
      (derive h net stim).DC_amp
        = h.dc_input_compensating_poisson net.bg_rate net.K_ext net.tau_syn
            (net.PSP_exc_mean * h.postsynaptic_potential_to_current net.C_m
              net.tau_m net.tau_syn)) ∧
    (net.K_scaling ≠ 1 →
      (derive h net stim).DC_amp
        = (h.adjust_weights_and_input_to_synapse_scaling net.full_num_neurons
            (h.num_synapses_from_conn_probs net.conn_probs net.full_num_neurons
              net.full_num_neurons)
            net.K_scaling
            (fun a b => net.PSP_matrix_mean a b *
              h.postsynaptic_potential_to_current net.C_m net.tau_m net.tau_syn)
            (net.PSP_exc_mean * h.postsynaptic_potential_to_current net.C_m
              net.tau_m net.tau_syn)
            net.tau_syn net.full_mean_rates
            (if net.poisson_input then fun _ => 0
             else h.dc_input_compensating_poisson net.bg_rate net.K_ext
               net.tau_syn
               (net.PSP_exc_mean * h.postsynaptic_potential_to_current net.C_m
                 net.tau_m net.tau_syn))
            net.poisson_input net.bg_rate net.K_ext).2.2) := by
  refine ⟨?_, ?_, ?_⟩
  · intro hp hk
    simp [derive, hp, hk]
  · intro hp hk
    simp [derive, hp, hk]
  · intro hk
    simp [derive, hk]

theorem bias_current_poisson_branch_witness :
    ({ net0 with poisson_input := true } : NetDict 1).poisson_input = true ∧
    (derive h0 { net0 with poisson_input := true } stim0).DC_amp
      = fun _ => 0 :=
  ⟨rfl, (bias_current_poisson_branch h0 { net0 with poisson_input := true }
      stim0).1 rfl rfl⟩

/-- Claim C3, counterexample to the original statement: with resolution
`1/10`, the version-2 recurrent delay rule clips at `1/10`, not `1/20`; the
delay `7/100` lies inside the claimed range `[resolution/2, inf)` (and is
accepted by the version-3 rule) yet the version-2 rule rejects it. -/
theorem delay_clip_range_counterexample :
    (recurrentDelayRuleV2 net0 (1/10) 0 0).lo = some (1/10) ∧
    (recurrentDelayRuleV2 net0 (1/10) 0 0).lo ≠ some ((1/10 : ℚ)/2) ∧
    (1/10 : ℚ)/2 ≤ 7/100 ∧
    accepts (recurrentDelayRuleV2 net0 (1/10) 0 0) (7/100) = false ∧
    accepts (recurrentDelayRuleV3 net0 (1/10) 0 0) (7/100) = true := by
  refine ⟨rfl, ?_, by norm_num, ?_, ?_⟩
  · simp only [recurrentDelayRuleV2, ne_eq, Option.some.injEq]
    norm_num
  · simp only [recurrentDelayRuleV2, accepts]
    norm_num
  · simp only [recurrentDelayRuleV3, accepts]
    norm_num

theorem createPopsLoop_success {P : ℕ} (net : NetDict P)
    (plan : DerivedParams P) :
    ∀ (l : List (Fin P)) (s s' : NetState),
      createPopsLoop net plan l s = (s', none) →
      ∃ cs, s'.kernel.trace = s.kernel.trace ++ cs ∧
        cs.all isEntityCreation = true := by
  intro l
  induction l with
  | nil =>
    intro s s' h
    simp only [createPopsLoop, Prod.mk.injEq] at h
    obtain ⟨rfl, -⟩ := h
    exact ⟨[], by simp, rfl⟩
  | cons i rest ih =>
    intro s s' h
    simp only [createPopsLoop] at h
    by_cases hv : net.V0_type = "optimized" ∨ net.V0_type = "original"
    · rw [if_pos hv] at h
      obtain ⟨cs, hcs, hall⟩ := ih _ _ h
      refine ⟨Event.create (plan.num_neurons i).toNat :: cs, ?_, ?_⟩
      · rw [hcs]
        simp [nestCreate, List.append_assoc]
      · simp [List.all_cons, hall, isEntityCreation]
    · rw [if_neg hv] at h
      exact Option.noConfusion (congrArg Prod.snd h)

/-- A successful `create()` appends only entity-creation events. -/
theorem networkCreate_success {P : ℕ} (net : NetDict P) (stim : StimDict P)
    (fl : SimFlags) (plan : DerivedParams P) {s s' : NetState}
    (h : networkCreate net stim fl plan s = (s', none)) :
    ∃ cs, s'.kernel.trace = s.kernel.trace ++ cs ∧
      cs.all isEntityCreation = true := by
  unfold networkCreate at h
  obtain ⟨s1, h1, h⟩ := pyStep_success h
  simp only [Prod.mk.injEq] at h
  obtain ⟨rfl, -⟩ := h
  have t1 : ∃ cs, s1.kernel.trace = s.kernel.trace ++ cs ∧
      cs.all isEntityCreation = true := by
    have := createPopsLoop_success net plan (List.finRange P)
      { s with pops := some [] } s1 h1
    simpa using this
  have t2 : ∃ cs, (if fl.spikeRecorder || fl.voltmeter then
        createRecordingDevices (P := P) fl s1 else s1).kernel.trace
      = s1.kernel.trace ++ cs ∧ cs.all isEntityCreation = true := by
    by_cases hg : fl.spikeRecorder || fl.voltmeter
    · rw [if_pos hg]
      unfold createRecordingDevices
      by_cases h1' : fl.spikeRecorder <;> by_cases h2' : fl.voltmeter
      · exact ⟨[Event.createDevice P, Event.createDevice P],
          by simp [h1', h2', nestCreateDevice], by simp [isEntityCreation]⟩
      · exact ⟨[Event.createDevice P],
          by simp [h1', h2', nestCreateDevice], by simp [isEntityCreation]⟩
      · exact ⟨[Event.createDevice P],
          by simp [h1', h2', nestCreateDevice], by simp [isEntityCreation]⟩
      · exact ⟨[], by simp [h1', h2'], rfl⟩
    · rw [if_neg hg]
      exact ⟨[], by simp, rfl⟩
  generalize hA : (if fl.spikeRecorder || fl.voltmeter then
    createRecordingDevices (P := P) fl s1 else s1) = s2 at t2
  have t3 : ∃ cs, (if net.poisson_input then createPoissonBgInput (P := P) s2
        else s2).kernel.trace = s2.kernel.trace ++ cs ∧
      cs.all isEntityCreation = true := by
    by_cases hg : net.poisson_input
    · rw [if_pos hg]
      exact ⟨[Event.createDevice P], rfl, by simp [isEntityCreation]⟩
    · rw [if_neg hg]
      exact ⟨[], by simp, rfl⟩
  generalize hB : (if net.poisson_input then createPoissonBgInput (P := P) s2
    else s2) = s3 at t3
  have t4 : ∃ cs, (if stim.thalamic_input then createThalamicStimInput stim s3
        else s3).kernel.trace = s3.kernel.trace ++ cs ∧
      cs.all isEntityCreation = true := by
    by_cases hg : stim.thalamic_input
    · rw [if_pos hg]
      refine ⟨[Event.create stim.num_th_neurons, Event.createDevice 1], ?_,
        by simp [isEntityCreation]⟩
      simp [createThalamicStimInput, nestCreate, nestCreateDevice,
        List.append_assoc]
    · rw [if_neg hg]
      exact ⟨[], by simp, rfl⟩
  generalize hC : (if stim.thalamic_input then createThalamicStimInput stim s3
    else s3) = s4 at t4
  have t5 : ∃ cs, (if stim.dc_input then createDcStimInput (P := P) s4
        else s4).kernel.trace = s4.kernel.trace ++ cs ∧
      cs.all isEntityCreation = true := by
    by_cases hg : stim.dc_input
    · rw [if_pos hg]
      exact ⟨[Event.createDevice P], rfl, by simp [isEntityCreation]⟩
    · rw [if_neg hg]
      exact ⟨[], by simp, rfl⟩
  exact creation_ext_trans t1 (creation_ext_trans t2
    (creation_ext_trans t3 (creation_ext_trans t4 t5)))

theorem sorted_of_all_eq {n : ℕ} :
    ∀ {l : List ℕ}, (∀ x ∈ l, x = n) → List.Sorted (· ≤ ·) l := by
  intro l
  induction l with
  | nil => intro _; exact List.sorted_nil
  | cons a l ih =>
    intro hl
    refine List.sorted_cons.mpr
      ⟨?_, ih fun x hx => hl x (List.mem_cons_of_mem a hx)⟩
    intro b hb
    rw [hl a (List.mem_cons_self a l), hl b (List.mem_cons_of_mem a hb)]

/-- The phase sequence of a well-ordered construction flow is monotone. -/
theorem sorted_flow_phases {cs : List Event}
    (hcs : cs.all isEntityCreation = true) (m : ℕ) (t : ℚ) :
    List.Sorted (· ≤ ·)
      ((cs ++ (List.replicate m Event.connect
        ++ [Event.prepare, Event.run t, Event.cleanup])).map phase) := by
  have h0 : ∀ x ∈ cs.map phase, x = 0 := by
    intro x hx
    obtain ⟨e, he, rfl⟩ := List.mem_map.mp hx
    have := List.all_eq_true.mp hcs e he
    cases e <;> simp_all [isEntityCreation, phase]
  have h1 : ∀ x ∈ (List.replicate m Event.connect).map phase, x = 1 := by
    intro x hx
    obtain ⟨e, he, rfl⟩ := List.mem_map.mp hx
    rw [List.eq_of_mem_replicate he]
    rfl
  rw [List.map_append, List.map_append]
  rw [show (List.Sorted (· ≤ ·) (List.map phase cs ++
      (List.map phase (List.replicate m Event.connect)
        ++ List.map phase [Event.prepare, Event.run t, Event.cleanup])))
    = List.Pairwise (· ≤ ·) _ from rfl, List.pairwise_append]
  refine ⟨sorted_of_all_eq h0, ?_, ?_⟩
  · rw [List.pairwise_append]
    refine ⟨sorted_of_all_eq h1,
      by simp only [List.map_cons, List.map_nil, phase]; decide, ?_⟩
    intro a ha b hb
    rw [h1 a ha]
    have : b = 2 ∨ b = 3 ∨ b = 4 := by
      simp only [List.map_cons, List.map_nil, List.mem_cons,
        List.not_mem_nil] at hb
      rcases hb with rfl | rfl | rfl | h
      · exact Or.inl rfl
      · exact Or.inr (Or.inl rfl)
      · exact Or.inr (Or.inr rfl)
      · exact absurd h (by simp)
    rcases this with rfl | rfl | rfl <;> omega
  · intro a ha b hb
    rw [h0 a ha]
    exact Nat.zero_le b

/-- Claim C6: after a successful `connect()` the engine is prepared (the
prepare transition ran at the end of `connect()`); the second prepare
attempt at the start of `simulate()` is caught, ignored and logged, and the
kernel it leaves is exactly the once-prepared kernel, so the call proceeds
to run and cleanup; if `connect()`'s prepare has not run, `simulate()`
prepares lazily without logging. -/
theorem prepare_idempotent_once {P : ℕ} (net : NetDict P) (stim : StimDict P)
    (fl : SimFlags) (plan : DerivedParams P) (s s1 : NetState) (t : ℚ)
    (k : Kernel) (hc : networkConnect net stim fl plan s = (s1, none))
    (hk : k.prepared = false) :
    s1.kernel.prepared = true ∧
    (networkSimulate t s1).2 = true ∧
    (networkSimulate t s1).1.kernel = nestCleanup (nestRun t s1.kernel) ∧
    tryPrepare s1.kernel = (s1.kernel, true) ∧
    tryPrepare k
      = ({ k with prepared := true, trace := k.trace ++ [Event.prepare] },
         false) := by
  have hp := (networkConnect_success net stim fl plan hc).2
  have htp := tryPrepare_of_prepared hp
  exact ⟨hp, by simp [networkSimulate, htp],
    by simp [networkSimulate, htp], htp, tryPrepare_of_unprepared hk⟩

theorem prepare_idempotent_once_witness :
    sConn.kernel.prepared = true ∧
    (networkSimulate 10 sConn).2 = true ∧
    (networkSimulate 10 sConn).1.kernel = nestCleanup (nestRun 10 sConn.kernel) ∧
    tryPrepare sConn.kernel = (sConn.kernel, true) ∧
    tryPrepare s0.kernel
      = (({ prepared := true, time := s0.kernel.time,
            trace := s0.kernel.trace ++ [Event.prepare] } : Kernel), false) :=
  prepare_idempotent_once net0 stim0 fl0 plan1 sCreated sConn 10 s0.kernel
    rfl rfl

/-- Claim C7 (amended): every `simulate(t)` call advances engine time by
exactly the newly requested `t` and performs its own full
prepare-run-cleanup cycle: it appends a run and a cleanup (preceded by a
prepare when the kernel was unprepared) and leaves the kernel unprepared, so
finalization happens once per `simulate()` call — not once after the last
run as the original claim states. -/
theorem simulate_cycle_amended (s : NetState) (t : ℚ) :
    (networkSimulate t s).1.kernel.time = s.kernel.time + t ∧
    (networkSimulate t s).1.kernel.trace
      = s.kernel.trace ++ (if s.kernel.prepared then
          [Event.run t, Event.cleanup]
        else [Event.prepare, Event.run t, Event.cleanup]) ∧
    (networkSimulate t s).1.kernel.prepared = false := by
  cases hp : s.kernel.prepared
  · simp [networkSimulate, tryPrepare_of_unprepared hp, nestRun, nestCleanup,
      List.append_assoc]
  · simp [networkSimulate, tryPrepare_of_prepared hp, nestRun, nestCleanup,
      List.append_assoc]

/-- Claim C7, counterexample to the original statement: on the connected
fixture, two consecutive `simulate` calls each perform a cleanup — the trace
contains a cleanup directly after the first run, before the second run, and
two cleanups in total, contradicting "finalization happens exactly once,
after the last run — not on every simulate call"; time still advances by
exactly the requested durations. -/
theorem cleanup_each_call_counterexample :
    (networkSimulate 5 (networkSimulate 10 sConn).1).1.kernel.trace
      = [Event.create 100, Event.connect, Event.prepare, Event.run 10,
         Event.cleanup, Event.prepare, Event.run 5, Event.cleanup] ∧
    (networkSimulate 10 sConn).1.kernel.trace.count Event.cleanup = 1 ∧
    (networkSimulate 5 (networkSimulate 10 sConn).1).1.kernel.trace.count
        Event.cleanup = 2 ∧
    (networkSimulate 5 (networkSimulate 10 sConn).1).1.kernel.time = 15 := by
  refine ⟨rfl, rfl, rfl, ?_⟩
  norm_num [networkSimulate, tryPrepare, nestPrepare, nestRun, nestCleanup,
    sConn]

/-- Claim C8 (amended): calling `connect` before `create` raises (a missing
`self.pops` attribute) and creates no connections — the state is returned
unchanged; in the successful `create` - `connect` - `simulate` flow the new
engine events are ordered creation, connect, prepare, run, cleanup
(population creation strictly precedes every connect, every connect
precedes `prepare`, `prepare` precedes `run`).  Calling `simulate` before
`create`, however, does not raise — the counterexample shows it runs the
empty network. -/
theorem ordering_amended {P : ℕ} (net : NetDict P) (stim : StimDict P)
    (fl : SimFlags) (plan : DerivedParams P) (s s1 s2 sP : NetState) (t : ℚ)
    (h1 : networkCreate net stim fl plan s = (s1, none))
    (h2 : networkConnect net stim fl plan s1 = (s2, none))
    (hsP : sP.pops = none) :
    networkConnect net stim fl plan sP = (sP, some PyErr.attributeError) ∧
    (networkSimulate t s2).1.kernel.trace
      = s2.kernel.trace ++ [Event.run t, Event.cleanup] ∧
    s2.kernel.trace.getLast? = some Event.prepare ∧
    List.Sorted (· ≤ ·)
      (((networkSimulate t s2).1.kernel.trace.drop
          s.kernel.trace.length).map phase) := by
  obtain ⟨⟨m, htr⟩, hp⟩ := networkConnect_success net stim fl plan h2
  obtain ⟨cs, hcs, hall⟩ := networkCreate_success net stim fl plan h1
  have hstep : connectNeuronalPopulations plan sP
      = (sP, some PyErr.attributeError) := by
    unfold connectNeuronalPopulations
    rw [hsP]
  have hsim : (networkSimulate t s2).1.kernel.trace
      = s2.kernel.trace ++ [Event.run t, Event.cleanup] := by
    simp [networkSimulate, tryPrepare_of_prepared hp, nestRun, nestCleanup,
      List.append_assoc]
  refine ⟨?_, hsim, ?_, ?_⟩
  · unfold networkConnect connectStages
    rw [hstep]
    rfl
  · rw [htr]
    exact List.getLast?_concat _
  · rw [hsim, htr, hcs]
    have hshape : s.kernel.trace ++ cs ++ List.replicate m Event.connect
          ++ [Event.prepare] ++ [Event.run t, Event.cleanup]
        = s.kernel.trace ++ (cs ++ (List.replicate m Event.connect
          ++ [Event.prepare, Event.run t, Event.cleanup])) := by
      simp [List.append_assoc]
    rw [hshape, List.drop_left]
    exact sorted_flow_phases hall m t

theorem ordering_amended_witness :
    networkConnect net0 stim0 fl0 plan1 s0
      = (s0, some PyErr.attributeError) ∧
    (networkSimulate 10 sConn).1.kernel.trace
      = sConn.kernel.trace ++ [Event.run 10, Event.cleanup] ∧
    sConn.kernel.trace.getLast? = some Event.prepare ∧
    List.Sorted (· ≤ ·)
      (((networkSimulate 10 sConn).1.kernel.trace.drop
          s0.kernel.trace.length).map phase) :=
  ordering_amended net0 stim0 fl0 plan1 s0 sCreated sConn s0 10 rfl rfl rfl

/-- Claim C8, counterexample to the original statement: `simulate` called on
the freshly constructed fixture, before `create`, raises nothing — the
guarded prepare succeeds (nothing is logged), the empty network runs for the
requested duration, and cleanup follows. -/
theorem simulate_before_create_counterexample :
    s0.pops = none ∧
    (networkSimulate 10 s0).2 = false ∧
    (networkSimulate 10 s0).1.kernel.trace
      = [Event.prepare, Event.run 10, Event.cleanup] ∧
    (networkSimulate 10 s0).1.kernel.time = 10 := by
  refine ⟨rfl, rfl, rfl, ?_⟩
  norm_num [networkSimulate, tryPrepare, nestPrepare, nestRun, nestCleanup, s0]

/-- Claim C9 (amended): an unsupported `V0_type` is a fatal error raised
while creating the first population — but only after that population's
neurons were already created in the engine, so a partial network does
surface; no later creation stage (devices, thalamic population, DC
generators) runs. -/
theorem v0type_error_after_first_create {P : ℕ} (net : NetDict P)
    (stim : StimDict P) (fl : SimFlags) (plan : DerivedParams P) (s : NetState)
    (hb1 : net.V0_type ≠ "optimized") (hb2 : net.V0_type ≠ "original")
    (hP : 0 < P) :
    (networkCreate net stim fl plan s).2 = some PyErr.v0TypeIncorrect ∧
    (networkCreate net stim fl plan s).1.kernel.trace
      = s.kernel.trace ++ [Event.create (plan.num_neurons ⟨0, hP⟩).toNat] ∧
    (networkCreate net stim fl plan s).1.poissonBg = s.poissonBg ∧
    (networkCreate net stim fl plan s).1.thalamic = s.thalamic ∧
    (networkCreate net stim fl plan s).1.dcGen = s.dcGen ∧
    (networkCreate net stim fl plan s).1.spikeRecs = s.spikeRecs ∧
    (networkCreate net stim fl plan s).1.voltRecs = s.voltRecs := by
  have hv : ¬(net.V0_type = "optimized" ∨ net.V0_type = "original") := by
    rintro (hx | hx)
    · exact hb1 hx
    · exact hb2 hx
  obtain ⟨n, rfl⟩ := Nat.exists_eq_succ_of_ne_zero hP.ne'
  have hmain : networkCreate net stim fl plan s
      = ({ { s with pops := some [] } with
            kernel := nestCreate (plan.num_neurons ⟨0, hP⟩).toNat s.kernel },
         some PyErr.v0TypeIncorrect) := by
    unfold networkCreate createNeuronalPopulations
    rw [List.finRange_succ]
    simp only [createPopsLoop]
    rw [if_neg hv]
    rfl
  rw [hmain]
  exact ⟨rfl, rfl, rfl, rfl, rfl, rfl, rfl⟩

theorem v0type_error_after_first_create_witness :
    (networkCreate { net0 with V0_type := "uniform" } stim0 fl0 plan1 s0).2
      = some PyErr.v0TypeIncorrect ∧
    (networkCreate { net0 with V0_type := "uniform" } stim0 fl0 plan1
        s0).1.kernel.trace
      = s0.kernel.trace
        ++ [Event.create (plan1.num_neurons ⟨0, Nat.zero_lt_one⟩).toNat] ∧
    (networkCreate { net0 with V0_type := "uniform" } stim0 fl0 plan1
        s0).1.poissonBg = s0.poissonBg ∧
    (networkCreate { net0 with V0_type := "uniform" } stim0 fl0 plan1
        s0).1.thalamic = s0.thalamic ∧
    (networkCreate { net0 with V0_type := "uniform" } stim0 fl0 plan1
        s0).1.dcGen = s0.dcGen ∧
    (networkCreate { net0 with V0_type := "uniform" } stim0 fl0 plan1
        s0).1.spikeRecs = s0.spikeRecs ∧
    (networkCreate { net0 with V0_type := "uniform" } stim0 fl0 plan1
        s0).1.voltRecs = s0.voltRecs :=
  v0type_error_after_first_create { net0 with V0_type := "uniform" } stim0
    fl0 plan1 s0 (by decide) (by decide) Nat.zero_lt_one

/-- Claim C9, counterexample to the original statement: with
`V0_type = "uniform"` on the one-population fixture, `create()` raises the
fatal `V0_type incorrect` error, yet the engine trace already contains the
first population's creation — the error is not raised before any entity is
created. -/
theorem v0type_partial_network_counterexample :
    (networkCreate { net0 with V0_type := "uniform" } stim0 fl0 plan1 s0).2
      = some PyErr.v0TypeIncorrect ∧
    (networkCreate { net0 with V0_type := "uniform" } stim0 fl0 plan1
        s0).1.kernel.trace = [Event.create 100] ∧
    [Event.create 100] ≠ ([] : List Event) :=
  ⟨rfl, rfl, by simp⟩

/-- Claim C10: the thalamic expected synapse count is computed against the
full-scale (unscaled) cortical population sizes and only `K_scaling`
rescales it (`N_scaling` never enters: changing `N_scaling` changes neither
`num_th_synapses` nor `weight_th`), and the thalamic population itself is
created with its full configured neuron count. -/
theorem thalamic_full_scale_targets {P : ℕ} (h : Helpers P) (net : NetDict P)
    (stim : StimDict P) (Ns2 : ℚ) (s : NetState)
    (hth : stim.thalamic_input = true) :
    (net.K_scaling = 1 →
      (derive h net stim).num_th_synapses
        = some (fun b => np_round (h.num_synapses_from_conn_probs_th
            stim.conn_probs_th (stim.num_th_neurons : ℚ)
            net.full_num_neurons b))) ∧
    (net.K_scaling ≠ 1 →
      (derive h net stim).num_th_synapses
        = some (fun b => np_round (h.num_synapses_from_conn_probs_th
            stim.conn_probs_th (stim.num_th_neurons : ℚ)
            net.full_num_neurons b * net.K_scaling))) ∧
    (derive h { net with N_scaling := Ns2 } stim).num_th_synapses
      = (derive h net stim).num_th_synapses ∧
    (derive h { net with N_scaling := Ns2 } stim).weight_th
      = (derive h net stim).weight_th ∧
    (createThalamicStimInput stim s).kernel.trace
      = s.kernel.trace
        ++ [Event.create stim.num_th_neurons, Event.createDevice 1] := by
  refine ⟨?_, ?_, rfl, rfl, ?_⟩
  · intro hk
    simp [derive, hth, hk]
  · intro hk
    simp [derive, hth, hk]
  · simp [createThalamicStimInput, nestCreate, nestCreateDevice,
      List.append_assoc]

theorem thalamic_full_scale_targets_witness :
    stim1.thalamic_input = true ∧
    ((net0.K_scaling = 1 →
      (derive h0 net0 stim1).num_th_synapses
        = some (fun b => np_round (h0.num_synapses_from_conn_probs_th
            stim1.conn_probs_th (stim1.num_th_neurons : ℚ)
            net0.full_num_neurons b))) ∧
    (net0.K_scaling ≠ 1 →
      (derive h0 net0 stim1).num_th_synapses
        = some (fun b => np_round (h0.num_synapses_from_conn_probs_th
            stim1.conn_probs_th (stim1.num_th_neurons : ℚ)
            net0.full_num_neurons b * net0.K_scaling))) ∧
    (derive h0 { net0 with N_scaling := 7/2 } stim1).num_th_synapses
      = (derive h0 net0 stim1).num_th_synapses ∧
    (derive h0 { net0 with N_scaling := 7/2 } stim1).weight_th
      = (derive h0 net0 stim1).weight_th ∧
    (createThalamicStimInput stim1 s0).kernel.trace
      = s0.kernel.trace
        ++ [Event.create stim1.num_th_neurons, Event.createDevice 1]) :=
  ⟨rfl, thalamic_full_scale_targets h0 net0 stim1 (7/2) s0 rfl⟩

end Microcircuit
